import Mathlib

/-!
Shallow embedding of `src/services/geminiLiveService.ts` (class
`GeminiLiveService`) from the V-Assistant repository, together with proofs
about its message handling, playback scheduling, transcript aggregation and
teardown behaviour.

Modelling choices:
* Nullable handle fields (`session`, `mediaStream`, the audio contexts, the
  audio-graph nodes) are modelled by `Bool` (`true` = non-null), since the
  code only tests them for nullness.
* The live set `outputSources` is an insertion-ordered list of scheduled
  sources; each scheduled source is recorded with its start time and its
  decoded duration (seconds, as rationals).
* Callback invocations and external side effects (stopping a track, closing a
  context, starting or stopping a playback source, ...) are collected in an
  event list; each operation returns `state × events`.
* The playback clock `outputAudioContext.currentTime` is an input to the
  message handler, supplied by the environment at each processed message.
-/

namespace VAssistant

/-- Speaker tag used by the service callbacks: the human speaker (`'Victime'`)
and the AI interviewer (`'IA'`). -/
inductive Speaker where
  | victime
  | ia
deriving DecidableEq, Repr

/-- Response modality of the live connection; the service requests audio. -/
inductive Modality where
  | audio
  | text
deriving DecidableEq, Repr

/-- The fixed system instruction passed to the live connection in
`startSession`, transcribed verbatim from the source (apostrophes written as
escape sequences). -/
def systemInstructionText : String := "Vous êtes une intelligence artificielle d\x27assistance aux victimes, conçue pour recueillir les dépositions dans les cas de violences conjugales. Votre rôle est d\x27agir comme un enquêteur professionnel, calme et empathique. Votre objectif principal est de constituer un rapport clair et précis pour les forces de l\x27ordre.\n\nVotre démarche doit être structurée :\n1.  **Introduction et Mise en Confiance :** Commencez par vous présenter et rassurer la victime. Expliquez que la conversation est confidentielle et a pour but de l\x27aider.\n2.  **Récit Libre :** Invitez la victime à raconter ce qui s\x27est passé avec ses propres mots.\n3.  **Questions de Précision :** Une fois le récit initial terminé, posez des questions méthodiques pour obtenir les détails essentiels :\n    *   **Identité :** \"Pouvez-vous me donner le nom de la personne impliquée ?\"\n    *   **Nature des faits :** \"Pouvez-vous décrire précisément les actes de violence (physique, verbale, psychologique) ?\"\n    *   **Date et Heure :** \"Quand exactement cela s\x27est-il produit ? Le jour et l\x27heure si possible.\"\n    *   **Lieu :** \"Où les faits ont-ils eu lieu ? Soyez aussi précise que possible.\"\n    *   **Témoins :** \"Y avait-il d\x27autres personnes présentes ? Si oui, qui ?\"\n    *   **Antécédents :** \"Est-ce la première fois que cela arrive ?\"\n    *   **Preuves :** \"Existe-t-il des preuves (photos, messages, certificats médicaux) ?\"\n4.  **Conclusion :** Remerciez la victime pour son courage et expliquez que sa déposition va être formalisée dans un rapport.\n\nRestez calme, ne portez aucun jugement, et guidez la conversation pour qu\x27elle soit la plus complète possible. Répondez exclusivement en français."

/-- Configuration passed to `ai.live.connect` by `startSession`. The two
transcription fields model the presence of the `inputAudioTranscription` and
`outputAudioTranscription` config objects. -/
structure LiveConnectConfig where
  model : String
  responseModalities : List Modality
  inputAudioTranscription : Bool
  outputAudioTranscription : Bool
  systemInstruction : String
deriving DecidableEq, Repr

/-- The concrete connection configuration built by `startSession`. -/
def liveConnectConfig : LiveConnectConfig :=
  { model := "gemini-2.5-flash-native-audio-preview-09-2025"
  , responseModalities := [Modality.audio]
  , inputAudioTranscription := true
  , outputAudioTranscription := true
  , systemInstruction := systemInstructionText }

/-- A scheduled playback source (an `AudioBufferSourceNode` held in
`outputSources`): its scheduled start time and the decoded buffer duration. -/
structure AudioSource where
  start : ℚ
  duration : ℚ
deriving DecidableEq, Repr

/-- Observable effects: upward callbacks of the `Callbacks` interface, and
side effects on audio resources and the connection. -/
inductive Event where
  | onTranscriptUpdate (text : String) (isFinal : Bool) (speaker : Speaker)
  | onTurnComplete (speaker : Speaker)
  | onError (msg : String)
  | onClose
  | sourceStarted (start duration : ℚ)
  | sourceStopped (start duration : ℚ)
  | scriptProcessorDisconnected
  | sourceNodeDisconnected
  | tracksStopped
  | inputContextClosed
  | outputContextClosed
  | sessionClosed
  | micRequested
  | contextCreated (sampleRate : Nat)
  | connectRequested (cfg : LiveConnectConfig)
  | captureWired
deriving DecidableEq, Repr

/-- The mutable fields of the `GeminiLiveService` class. -/
structure ServiceState where
  session : Bool
  sessionPromise : Bool
  mediaStream : Bool
  inputAudioContext : Bool
  outputAudioContext : Bool
  scriptProcessor : Bool
  sourceNode : Bool
  outputSources : List AudioSource
  nextStartTime : ℚ
  currentInputTranscription : String
  currentOutputTranscription : String
deriving DecidableEq, Repr

/-- Field values established by the field initializers of the class. -/
def initState : ServiceState :=
  { session := false
  , sessionPromise := false
  , mediaStream := false
  , inputAudioContext := false
  , outputAudioContext := false
  , scriptProcessor := false
  , sourceNode := false
  , outputSources := []
  , nextStartTime := 0
  , currentInputTranscription := ""
  , currentOutputTranscription := "" }

/-- The parts of a `LiveServerMessage` that `handleServerMessage` reads. A
synthesized-audio chunk (`serverContent.modelTurn.parts[0].inlineData.data`)
is represented by the duration of its decoded buffer; `none` models a missing
field. -/
structure ServerMessage where
  inputTranscription : Option String
  outputTranscription : Option String
  turnComplete : Bool
  interrupted : Bool
  audioData : Option ℚ
deriving DecidableEq, Repr

/-- Model of `GeminiLiveService.handleServerMessage` for one inbound message.
`currentTime` is the playback clock (`outputAudioContext.currentTime`) when
the message is processed. Returns the updated state and the emitted events,
following the source order: input transcription, output transcription,
turn-complete, interruption, audio scheduling. -/
def handleServerMessage (st : ServiceState) (m : ServerMessage)
    (currentTime : ℚ) : ServiceState × List Event :=
  let p1 : ServiceState × List Event :=
    match m.inputTranscription with
    | some text =>
        let buf := st.currentInputTranscription ++ text
        ({ st with currentInputTranscription := buf },
          [Event.onTranscriptUpdate buf false Speaker.victime])
    | none => (st, [])
  let st1 := p1.fst
  let p2 : ServiceState × List Event :=
    match m.outputTranscription with
    | some text =>
        let buf := st1.currentOutputTranscription ++ text
        ({ st1 with currentOutputTranscription := buf },
          [Event.onTranscriptUpdate buf false Speaker.ia])
    | none => (st1, [])
  let st2 := p2.fst
  let p3 : ServiceState × List Event :=
    if m.turnComplete then
      let q1 : ServiceState × List Event :=
        if st2.currentInputTranscription ≠ "" then
          ({ st2 with currentInputTranscription := "" },
            [Event.onTurnComplete Speaker.victime])
        else (st2, [])
      let q2 : ServiceState × List Event :=
        if q1.fst.currentOutputTranscription ≠ "" then
          ({ q1.fst with currentOutputTranscription := "" },
            [Event.onTurnComplete Speaker.ia])
        else (q1.fst, [])
      (q2.fst, q1.snd ++ q2.snd)
    else (st2, [])
  let st3 := p3.fst
  let p4 : ServiceState × List Event :=
    if m.interrupted then
      ({ st3 with outputSources := [], nextStartTime := 0 },
        st3.outputSources.map fun s => Event.sourceStopped s.start s.duration)
    else (st3, [])
  let st4 := p4.fst
  let p5 : ServiceState × List Event :=
    match m.audioData with
    | some duration =>
        if st4.outputAudioContext then
          let startTime := max st4.nextStartTime currentTime
          ({ st4 with
              nextStartTime := startTime + duration
            , outputSources := st4.outputSources ++ [⟨startTime, duration⟩] },
            [Event.sourceStarted startTime duration])
        else (st4, [])
    | none => (st4, [])
  (p5.fst, p1.snd ++ p2.snd ++ p3.snd ++ p4.snd ++ p5.snd)

/-- Model of `GeminiLiveService.cleanup`, the teardown routine. Each
optional-chained call (`?.`) fires its effect only when the handle is
non-null; every source in the live set is stopped and the set is cleared;
the transcript buffers and `nextStartTime` are not touched. -/
def cleanup (st : ServiceState) : ServiceState × List Event :=
  let evs :=
    (if st.scriptProcessor then [Event.scriptProcessorDisconnected] else []) ++
    (if st.sourceNode then [Event.sourceNodeDisconnected] else []) ++
    (if st.mediaStream then [Event.tracksStopped] else []) ++
    (if st.inputAudioContext then [Event.inputContextClosed] else []) ++
    (if st.outputAudioContext then [Event.outputContextClosed] else []) ++
    (st.outputSources.map fun s => Event.sourceStopped s.start s.duration)
  ({ st with
      session := false
    , sessionPromise := false
    , mediaStream := false
    , inputAudioContext := false
    , outputAudioContext := false
    , scriptProcessor := false
    , sourceNode := false
    , outputSources := [] }, evs)

/-- Model of `GeminiLiveService.stopSession`: close the session if present
(`this.session?.close()`), then run `cleanup`. -/
def stopSession (st : ServiceState) : ServiceState × List Event :=
  let close := if st.session then [Event.sessionClosed] else []
  let c := cleanup st
  (c.fst, close ++ c.snd)

/-- Model of the connection `onerror` callback registered by `startSession`:
it only reports through `callbacks.onError`; it does not run `cleanup`. -/
def onerrorHandler (st : ServiceState) (msg : String) :
    ServiceState × List Event :=
  (st, [Event.onError ("Erreur de connexion : " ++ msg)])

/-- Model of the connection `onclose` callback registered by `startSession`:
report `callbacks.onClose`, then run `cleanup`. -/
def oncloseHandler (st : ServiceState) : ServiceState × List Event :=
  let c := cleanup st
  (c.fst, Event.onClose :: c.snd)

/-- Model of the connection `onopen` callback registered by `startSession`:
wire the capture path (media-stream source node and script processor). -/
def onopenHandler (st : ServiceState) : ServiceState × List Event :=
  ({ st with sourceNode := true, scriptProcessor := true },
    [Event.captureWired])

/-- Outcome of microphone acquisition (`getUserMedia`): granted, or denied
with the thrown error message. -/
inductive MicResult where
  | granted
  | denied (msg : String)
deriving DecidableEq, Repr

/-- Model of `GeminiLiveService.startSession`, up to the resolution of the
session promise. `mic` is the environment outcome of `getUserMedia`. On
denial, `getUserMedia` throws and the `catch` block reports `onError` with
the French prefix and runs `cleanup`. On success, the media stream, the two
audio contexts (16 kHz capture, 24 kHz playback) and the connection are set
up in that order; the capture path is wired later, by the `onopen` callback
(`onopenHandler`), not here. -/
def startSession (mic : MicResult) (st : ServiceState) :
    ServiceState × List Event :=
  match mic with
  | MicResult.denied msg =>
      let c := cleanup st
      (c.fst,
        [Event.micRequested,
          Event.onError ("Impossible de démarrer la session : " ++ msg)] ++
          c.snd)
  | MicResult.granted =>
      ({ st with
          mediaStream := true
        , inputAudioContext := true
        , outputAudioContext := true
        , sessionPromise := true
        , session := true },
        [Event.micRequested, Event.contextCreated 16000,
          Event.contextCreated 24000,
          Event.connectRequested liveConnectConfig])

/-- The service state right after a successful `startSession` followed by the
connection signalling open. -/
def openState : ServiceState :=
  (onopenHandler (startSession MicResult.granted initState).fst).fst

/-- Process a list of inbound server messages in arrival order, each paired
with the playback clock reading at its processing time, threading the state
and concatenating the emitted events. -/
def runMessages : ServiceState → List (ServerMessage × ℚ) →
    ServiceState × List Event
  | st, [] => (st, [])
  | st, (m, t) :: rest =>
      let r := handleServerMessage st m t
      let r2 := runMessages r.fst rest
      (r2.fst, r.snd ++ r2.snd)

/-- A message carrying only a synthesized-audio chunk whose decoded buffer
has the given duration. -/
def audioMsg (duration : ℚ) : ServerMessage :=
  { inputTranscription := none, outputTranscription := none
  , turnComplete := false, interrupted := false, audioData := some duration }

/-- A message carrying only a partial input transcription (speaker
`'Victime'`). -/
def inputMsg (text : String) : ServerMessage :=
  { inputTranscription := some text, outputTranscription := none
  , turnComplete := false, interrupted := false, audioData := none }

/-- A message carrying only a partial output transcription (speaker `'IA'`). -/
def outputMsg (text : String) : ServerMessage :=
  { inputTranscription := none, outputTranscription := some text
  , turnComplete := false, interrupted := false, audioData := none }

/-- A message carrying only the turn-complete signal. -/
def turnCompleteMsg : ServerMessage :=
  { inputTranscription := none, outputTranscription := none
  , turnComplete := true, interrupted := false, audioData := none }

/-- A message carrying only the interruption signal. -/
def interruptedMsg : ServerMessage :=
  { inputTranscription := none, outputTranscription := none
  , turnComplete := false, interrupted := true, audioData := none }

/-- Sources scheduled back to back: starting at clock value `c`, one source
per listed duration, each beginning where the previous one ends. -/
def schedList (c : ℚ) : List ℚ → List AudioSource
  | [] => []
  | d :: ds => ⟨c, d⟩ :: schedList (c + d) ds

/-- Step lemma: a pure input-transcription message appends to the `'Victime'`
buffer and emits one non-final update carrying the accumulated text. -/
theorem handleServerMessage_inputMsg (st : ServiceState) (text : String)
    (t : ℚ) :
    handleServerMessage st (inputMsg text) t =
      ({ st with currentInputTranscription :=
          st.currentInputTranscription ++ text },
        [Event.onTranscriptUpdate (st.currentInputTranscription ++ text)
          false Speaker.victime]) := rfl

/-- Step lemma: a pure output-transcription message appends to the `'IA'`
buffer and emits one non-final update carrying the accumulated text. -/
theorem handleServerMessage_outputMsg (st : ServiceState) (text : String)
    (t : ℚ) :
    handleServerMessage st (outputMsg text) t =
      ({ st with currentOutputTranscription :=
          st.currentOutputTranscription ++ text },
        [Event.onTranscriptUpdate (st.currentOutputTranscription ++ text)
          false Speaker.ia]) := rfl

/-- Step lemma: a pure interruption message stops every source in the live
set, clears the set and resets the scheduling clock to zero. -/
theorem handleServerMessage_interruptedMsg (st : ServiceState) (t : ℚ) :
    handleServerMessage st interruptedMsg t =
      ({ st with outputSources := [], nextStartTime := 0 },
        st.outputSources.map fun s =>
          Event.sourceStopped s.start s.duration) := by
  simp [handleServerMessage, interruptedMsg]

/-- Step lemma: with a live playback context, a pure audio message schedules
one source at `max nextStartTime currentTime` and advances the clock by the
chunk's duration. -/
theorem handleServerMessage_audioMsg (st : ServiceState) (d t : ℚ)
    (hctx : st.outputAudioContext = true) :
    handleServerMessage st (audioMsg d) t =
      ({ st with
          nextStartTime := max st.nextStartTime t + d
        , outputSources :=
            st.outputSources ++ [⟨max st.nextStartTime t, d⟩] },
        [Event.sourceStarted (max st.nextStartTime t) d]) := by
  simp [handleServerMessage, audioMsg, hctx]

/-- A fully live sample state: open session, wired capture path, two
scheduled sources, advanced clock, pending AI transcript text. -/
def sampleLiveState : ServiceState :=
  { session := true
  , sessionPromise := true
  , mediaStream := true
  , inputAudioContext := true
  , outputAudioContext := true
  , scriptProcessor := true
  , sourceNode := true
  , outputSources := [⟨0, 2⟩, ⟨2, 3⟩]
  , nextStartTime := 5
  , currentInputTranscription := ""
  , currentOutputTranscription := "Bonjour, je suis là pour vous aider." }

/-- C10: the teardown routine is a frame for the transcript buffers and the
playback clock: `currentInputTranscription`, `currentOutputTranscription` and
`nextStartTime` hold the same values after any run of `cleanup` as before
it, so accumulated transcript text survives stop/close/error teardown within
the same service instance. -/
theorem cleanup_preserves_transcripts_and_clock (st : ServiceState) :
    (cleanup st).fst.currentInputTranscription =
        st.currentInputTranscription ∧
    (cleanup st).fst.currentOutputTranscription =
        st.currentOutputTranscription ∧
    (cleanup st).fst.nextStartTime = st.nextStartTime :=
  ⟨rfl, rfl, rfl⟩

/-- C9: every run of `cleanup` nulls the session handle and promise, the
media stream, both audio contexts and both capture nodes, and empties the
live playback set; and it performs the matching release effects — tracks
stopped when a stream was held, nodes disconnected when present, contexts
closed when open, and a stop for every source that was in the live set —
regardless of the prior state. -/
theorem cleanup_releases_everything (st : ServiceState) :
    ((cleanup st).fst.session = false ∧
      (cleanup st).fst.sessionPromise = false ∧
      (cleanup st).fst.mediaStream = false ∧
      (cleanup st).fst.inputAudioContext = false ∧
      (cleanup st).fst.outputAudioContext = false ∧
      (cleanup st).fst.scriptProcessor = false ∧
      (cleanup st).fst.sourceNode = false ∧
      (cleanup st).fst.outputSources = []) ∧
    (st.mediaStream = true → Event.tracksStopped ∈ (cleanup st).snd) ∧
    (st.scriptProcessor = true →
      Event.scriptProcessorDisconnected ∈ (cleanup st).snd) ∧
    (st.sourceNode = true →
      Event.sourceNodeDisconnected ∈ (cleanup st).snd) ∧
    (st.inputAudioContext = true →
      Event.inputContextClosed ∈ (cleanup st).snd) ∧
    (st.outputAudioContext = true →
      Event.outputContextClosed ∈ (cleanup st).snd) ∧
    ∀ s ∈ st.outputSources,
      Event.sourceStopped s.start s.duration ∈ (cleanup st).snd := by
  refine ⟨⟨rfl, rfl, rfl, rfl, rfl, rfl, rfl, rfl⟩, ?_, ?_, ?_, ?_, ?_, ?_⟩
  · intro h; simp [cleanup, h]
  · intro h; simp [cleanup, h]
  · intro h; simp [cleanup, h]
  · intro h; simp [cleanup, h]
  · intro h; simp [cleanup, h]
  · intro s hs
    simp only [cleanup, List.mem_append, List.mem_map]
    exact Or.inr ⟨s, hs, rfl⟩

/-- Witness for `cleanup_releases_everything` at the sample live state. -/
theorem cleanup_releases_everything_witness :
    Event.tracksStopped ∈ (cleanup sampleLiveState).snd ∧
    Event.sourceStopped 0 2 ∈ (cleanup sampleLiveState).snd ∧
    (cleanup sampleLiveState).fst.session = false := by
  have h := cleanup_releases_everything sampleLiveState
  exact ⟨h.2.1 rfl, h.2.2.2.2.2.2 ⟨0, 2⟩ (by decide), h.1.1⟩

/-- C6 counterexample: firing the connection `onerror` handler does not
trigger teardown. From the fully live sample state it leaves the media
stream handle non-null (while `cleanup` would null it) and only reports the
error through `onError`. -/
theorem onerror_no_teardown :
    (onerrorHandler sampleLiveState "réseau interrompu").fst.mediaStream
        = true ∧
    (cleanup sampleLiveState).fst.mediaStream = false ∧
    (onerrorHandler sampleLiveState "réseau interrompu").snd =
      [Event.onError "Erreur de connexion : réseau interrompu"] :=
  ⟨rfl, rfl, rfl⟩

/-- C6 amended: the connection `onclose` handler triggers the teardown
routine (exactly the one `cleanup` run it contains), and `cleanup` is
idempotent — a second run from the state produced by the first changes
nothing and performs no further effect; the `onerror` handler, however, only
reports the error and does not trigger teardown. -/
theorem onclose_teardown_once_and_idempotent (st : ServiceState)
    (msg : String) :
    (oncloseHandler st).fst = (cleanup st).fst ∧
    cleanup (cleanup st).fst = ((cleanup st).fst, []) ∧
    (onerrorHandler st msg).fst = st :=
  ⟨rfl, rfl, rfl⟩

/-- C7: when microphone acquisition is denied with error message `msg`,
`startSession` from the initial state emits exactly one microphone request
(so no retry is attempted) and an `onError` callback whose text is the
French prefix followed by `msg`; it ends fully torn down — the state equals
the initial state, in particular no audio context is open and the session
handle is null. -/
theorem startSession_mic_denied (msg : String) :
    (startSession (MicResult.denied msg) initState).snd =
      [Event.micRequested,
        Event.onError ("Impossible de démarrer la session : " ++ msg)] ∧
    (startSession (MicResult.denied msg) initState).snd.count
        Event.micRequested = 1 ∧
    (startSession (MicResult.denied msg) initState).fst = initState ∧
    (startSession (MicResult.denied msg) initState).fst.inputAudioContext
        = false ∧
    (startSession (MicResult.denied msg) initState).fst.outputAudioContext
        = false ∧
    (startSession (MicResult.denied msg) initState).fst.session = false := by
  refine ⟨rfl, ?_, rfl, rfl, rfl, rfl⟩
  simp [startSession, cleanup, initState, List.count_cons]

/-- C8: the success path of `startSession` performs, in order: microphone
acquisition, creation of the 16 kHz capture context, creation of the 24 kHz
playback context, and one connection request configured with audio response
modality, input and output transcription enabled and the fixed system
instruction. No capture wiring happens in `startSession` itself: the
`onopen` handler is what wires the source node and the script processor. -/
theorem startSession_step_order :
    (startSession MicResult.granted initState).snd =
      [Event.micRequested, Event.contextCreated 16000,
        Event.contextCreated 24000,
        Event.connectRequested liveConnectConfig] ∧
    liveConnectConfig.responseModalities = [Modality.audio] ∧
    liveConnectConfig.inputAudioTranscription = true ∧
    liveConnectConfig.outputAudioTranscription = true ∧
    liveConnectConfig.systemInstruction = systemInstructionText ∧
    (startSession MicResult.granted initState).snd.count
        Event.captureWired = 0 ∧
    (onopenHandler (startSession MicResult.granted initState).fst).snd =
      [Event.captureWired] ∧
    (onopenHandler
        (startSession MicResult.granted initState).fst).fst.sourceNode
        = true ∧
    (onopenHandler
        (startSession MicResult.granted initState).fst).fst.scriptProcessor
        = true := by
  refine ⟨rfl, rfl, rfl, rfl, rfl, ?_, rfl, rfl, rfl⟩
  simp [startSession, List.count_cons, List.count_nil]

/-- C3: processing a pure turn-complete message emits exactly one
`onTurnComplete` callback for each speaker whose transcript buffer is
non-empty and none for a speaker whose buffer is empty, and leaves both
buffers empty afterwards; the playback state is untouched. -/
theorem turnComplete_flushes_each_nonempty_buffer_once (st : ServiceState)
    (t : ℚ) :
    ((handleServerMessage st turnCompleteMsg t).snd.count
        (Event.onTurnComplete Speaker.victime) =
      if st.currentInputTranscription = "" then 0 else 1) ∧
    ((handleServerMessage st turnCompleteMsg t).snd.count
        (Event.onTurnComplete Speaker.ia) =
      if st.currentOutputTranscription = "" then 0 else 1) ∧
    (handleServerMessage st turnCompleteMsg t).fst.currentInputTranscription
        = "" ∧
    (handleServerMessage st turnCompleteMsg t).fst.currentOutputTranscription
        = "" ∧
    (handleServerMessage st turnCompleteMsg t).fst.outputSources =
        st.outputSources ∧
    (handleServerMessage st turnCompleteMsg t).fst.nextStartTime =
        st.nextStartTime := by
  by_cases h1 : st.currentInputTranscription = "" <;>
    by_cases h2 : st.currentOutputTranscription = "" <;>
      simp [handleServerMessage, turnCompleteMsg, h1, h2, List.count_cons]

/-- C2: a pure interruption message stops every source in the live playback
set (one stop effect per element, in order), removes them all so the set
becomes empty, and resets `nextStartTime` to zero; the next audio chunk
handled afterwards, at clock reading `u`, is scheduled to start at
`max 0 u`, not at the pre-interruption cumulative offset. -/
theorem interruption_clears_set_and_resets_clock (st : ServiceState)
    (t u d : ℚ) (hctx : st.outputAudioContext = true) :
    (handleServerMessage st interruptedMsg t).fst.outputSources = [] ∧
    (handleServerMessage st interruptedMsg t).fst.nextStartTime = 0 ∧
    (handleServerMessage st interruptedMsg t).snd =
      st.outputSources.map (fun s =>
        Event.sourceStopped s.start s.duration) ∧
    (handleServerMessage (handleServerMessage st interruptedMsg t).fst
        (audioMsg d) u).fst.outputSources = [⟨max 0 u, d⟩] ∧
    (handleServerMessage (handleServerMessage st interruptedMsg t).fst
        (audioMsg d) u).snd = [Event.sourceStarted (max 0 u) d] := by
  refine ⟨rfl, rfl, (handleServerMessage_interruptedMsg st t) ▸ rfl, ?_, ?_⟩
  all_goals rw [handleServerMessage_interruptedMsg,
    handleServerMessage_audioMsg _ _ _ (by simpa using hctx)]
  all_goals rfl

/-- Witness for `interruption_clears_set_and_resets_clock` at the sample
live state, with clock readings 1 and a 2-second follow-up chunk. -/
theorem interruption_clears_set_and_resets_clock_witness :
    (handleServerMessage sampleLiveState interruptedMsg 1).fst.nextStartTime
        = 0 ∧
    (handleServerMessage
        (handleServerMessage sampleLiveState interruptedMsg 1).fst
        (audioMsg 2) 1).fst.outputSources = [⟨max 0 1, 2⟩] := by
  have h := interruption_clears_set_and_resets_clock sampleLiveState 1 1 2 rfl
  exact ⟨h.2.1, h.2.2.2.1⟩

/-- C5, evaluated at the failing input: after `stopSession` from the live
sample state, a further inbound partial-transcript message is not a no-op —
the handler has no teardown guard, so it still emits `onTranscriptUpdate`
and mutates the buffer. The playback half of the claim does hold: an audio
chunk handled after teardown is not scheduled, because the playback context
is null. -/
theorem post_stop_transcript_message_not_noop :
    (handleServerMessage (stopSession sampleLiveState).fst
        (inputMsg "Bonjour") 0).snd =
      [Event.onTranscriptUpdate "Bonjour" false Speaker.victime] ∧
    (handleServerMessage (stopSession sampleLiveState).fst
        (inputMsg "Bonjour") 0).fst.currentInputTranscription = "Bonjour" ∧
    (handleServerMessage (stopSession sampleLiveState).fst
        (audioMsg 2) 0).snd = [] ∧
    (handleServerMessage (stopSession sampleLiveState).fst
        (audioMsg 2) 0).fst.outputSources = [] := by
  refine ⟨?_, ?_, rfl, rfl⟩ <;>
    rw [handleServerMessage_inputMsg] <;> rfl

/-- Expected incremental update events for a run of partial texts from a
buffer already holding `pre`: one event per text, carrying the accumulated
concatenation so far, never final. -/
def accumUpdates (sp : Speaker) (pre : String) : List String → List Event
  | [] => []
  | s :: rest =>
      Event.onTranscriptUpdate (pre ++ s) false sp ::
        accumUpdates sp (pre ++ s) rest

/-- One expected event per partial text. -/
theorem accumUpdates_length (sp : Speaker) :
    ∀ (texts : List String) (pre : String),
      (accumUpdates sp pre texts).length = texts.length
  | [], _ => rfl
  | s :: rest, pre => by
      simp [accumUpdates, accumUpdates_length sp rest (pre ++ s)]

/-- The `i`-th expected event carries the concatenation of the prefix text
with the first `i + 1` partial texts. -/
theorem accumUpdates_get (sp : Speaker) :
    ∀ (texts : List String) (pre : String) (i : Nat)
      (hi : i < (accumUpdates sp pre texts).length),
      (accumUpdates sp pre texts).get ⟨i, hi⟩ =
        Event.onTranscriptUpdate
          ((texts.take (i + 1)).foldl (fun a b => a ++ b) pre) false sp
  | [], _, i, hi => by simp [accumUpdates] at hi
  | s :: rest, pre, 0, hi => by simp [accumUpdates]
  | s :: rest, pre, i + 1, hi => by
      have h := accumUpdates_get sp rest (pre ++ s) i
        (by simpa [accumUpdates] using hi)
      simpa [accumUpdates] using h

/-- Characterization of a run of pure input-transcription messages: the
buffer accumulates by left fold, and the emitted events are exactly the
incremental updates for speaker `'Victime'`. -/
theorem runMessages_input :
    ∀ (texts : List String) (st : ServiceState),
      runMessages st (texts.map fun s => (inputMsg s, 0)) =
        ({ st with currentInputTranscription :=
            texts.foldl (fun a b => a ++ b) st.currentInputTranscription },
          accumUpdates Speaker.victime st.currentInputTranscription texts)
  | [], st => rfl
  | s :: rest, st => by
      simp only [List.map_cons, runMessages, handleServerMessage_inputMsg,
        runMessages_input rest]
      simp [accumUpdates]

/-- Characterization of a run of pure output-transcription messages: the
buffer accumulates by left fold, and the emitted events are exactly the
incremental updates for speaker `'IA'`. -/
theorem runMessages_output :
    ∀ (texts : List String) (st : ServiceState),
      runMessages st (texts.map fun s => (outputMsg s, 0)) =
        ({ st with currentOutputTranscription :=
            texts.foldl (fun a b => a ++ b) st.currentOutputTranscription },
          accumUpdates Speaker.ia st.currentOutputTranscription texts)
  | [], st => rfl
  | s :: rest, st => by
      simp only [List.map_cons, runMessages, handleServerMessage_outputMsg,
        runMessages_output rest]
      simp [accumUpdates]

/-- C4: for any sequence of partial-transcript messages for a single speaker
processed from empty buffers (i.e. between two turn-complete signals),
exactly one `onTranscriptUpdate` callback is emitted per partial event, each
with `isFinal = false`, and the `i`-th emitted text equals the concatenation
of the first `i + 1` partial texts — for the human speaker (`'Victime'`) on
input transcriptions and for the AI (`'IA'`) on output transcriptions. -/
theorem partial_updates_concatenate (st : ServiceState)
    (texts : List String) (hin : st.currentInputTranscription = "")
    (hout : st.currentOutputTranscription = "") :
    ((runMessages st (texts.map fun s => (inputMsg s, 0))).snd.length =
        texts.length ∧
      ∀ i (hi : i <
          (runMessages st
            (texts.map fun s => (inputMsg s, 0))).snd.length),
        (runMessages st (texts.map fun s => (inputMsg s, 0))).snd.get
            ⟨i, hi⟩ =
          Event.onTranscriptUpdate
            ((texts.take (i + 1)).foldl (fun a b => a ++ b) "")
            false Speaker.victime) ∧
    ((runMessages st (texts.map fun s => (outputMsg s, 0))).snd.length =
        texts.length ∧
      ∀ i (hi : i <
          (runMessages st
            (texts.map fun s => (outputMsg s, 0))).snd.length),
        (runMessages st (texts.map fun s => (outputMsg s, 0))).snd.get
            ⟨i, hi⟩ =
          Event.onTranscriptUpdate
            ((texts.take (i + 1)).foldl (fun a b => a ++ b) "")
            false Speaker.ia) := by
  rw [runMessages_input texts st, runMessages_output texts st, hin, hout]
  exact ⟨⟨accumUpdates_length Speaker.victime texts "",
      fun i hi => accumUpdates_get Speaker.victime texts "" i hi⟩,
    ⟨accumUpdates_length Speaker.ia texts "",
      fun i hi => accumUpdates_get Speaker.ia texts "" i hi⟩⟩

/-- Witness for `partial_updates_concatenate`: the two partial texts
`"B"`, `"onjour"` from the freshly opened state produce two updates, the
second carrying the full concatenation. -/
theorem partial_updates_concatenate_witness :
    (runMessages openState
        (["B", "onjour"].map fun s => (inputMsg s, 0))).snd.length = 2 ∧
    (runMessages openState
        (["B", "onjour"].map fun s => (inputMsg s, 0))).snd =
      [Event.onTranscriptUpdate "B" false Speaker.victime,
        Event.onTranscriptUpdate "Bonjour" false Speaker.victime] := by
  have h := partial_updates_concatenate openState ["B", "onjour"] rfl rfl
  refine ⟨h.1.1, ?_⟩
  rw [runMessages_input]
  rfl

/-- The back-to-back schedule has one source per duration. -/
theorem schedList_length : ∀ (ds : List ℚ) (c : ℚ),
    (schedList c ds).length = ds.length
  | [], _ => rfl
  | d :: ds, c => by simp [schedList, schedList_length ds (c + d)]

/-- The `i`-th source of the back-to-back schedule starts at the base clock
value plus the sum of the preceding durations. -/
theorem schedList_start : ∀ (ds : List ℚ) (c : ℚ) (i : Nat)
    (hi : i < (schedList c ds).length),
    ((schedList c ds).get ⟨i, hi⟩).start = c + (ds.take i).sum
  | [], c, i, hi => by simp [schedList] at hi
  | d :: ds, c, 0, hi => by simp [schedList]
  | d :: ds, c, i + 1, hi => by
      have h := schedList_start ds (c + d) i
        (by simpa [schedList] using hi)
      simpa [schedList, add_assoc] using h

/-- The `i`-th source of the back-to-back schedule has the `i`-th duration. -/
theorem schedList_duration : ∀ (ds : List ℚ) (c : ℚ) (i : Nat)
    (hi : i < (schedList c ds).length),
    ((schedList c ds).get ⟨i, hi⟩).duration = ds.getD i 0
  | [], c, i, hi => by simp [schedList] at hi
  | d :: ds, c, 0, hi => by simp [schedList]
  | d :: ds, c, i + 1, hi => by
      have h := schedList_duration ds (c + d) i
        (by simpa [schedList] using hi)
      simpa [schedList] using h

/-- With nonnegative durations, no source of the back-to-back schedule
starts before the base clock value. -/
theorem schedList_start_le : ∀ (ds : List ℚ) (c : ℚ),
    (∀ d ∈ ds, 0 ≤ d) → ∀ (i : Nat) (hi : i < (schedList c ds).length),
    c ≤ ((schedList c ds).get ⟨i, hi⟩).start
  | [], c, _, i, hi => by simp [schedList] at hi
  | d :: ds, c, hd, 0, hi => by simp [schedList]
  | d :: ds, c, hd, i + 1, hi => by
      have hrec := schedList_start_le ds (c + d)
        (fun x hx => hd x (List.mem_cons_of_mem d hx)) i
        (by simpa [schedList] using hi)
      have hcd : c ≤ c + d :=
        le_add_of_nonneg_right (hd d (List.mem_cons_self d ds))
      exact le_trans hcd (by simpa [schedList] using hrec)

/-- With nonnegative durations the back-to-back schedule never overlaps: an
earlier source ends no later than a later source starts. -/
theorem schedList_no_overlap : ∀ (ds : List ℚ) (c : ℚ),
    (∀ d ∈ ds, 0 ≤ d) →
    ∀ (i j : Nat) (hi : i < (schedList c ds).length)
      (hj : j < (schedList c ds).length), i < j →
      ((schedList c ds).get ⟨i, hi⟩).start +
          ((schedList c ds).get ⟨i, hi⟩).duration ≤
        ((schedList c ds).get ⟨j, hj⟩).start
  | [], c, _, i, j, hi, _, _ => by simp [schedList] at hi
  | d :: ds, c, hd, i, 0, _, _, hij => absurd hij (Nat.not_lt_zero i)
  | d :: ds, c, hd, 0, j + 1, hi, hj, _ => by
      have h := schedList_start_le ds (c + d)
        (fun x hx => hd x (List.mem_cons_of_mem d hx)) j
        (by simpa [schedList] using hj)
      simpa [schedList] using h
  | d :: ds, c, hd, i + 1, j + 1, hi, hj, hij => by
      have h := schedList_no_overlap ds (c + d)
        (fun x hx => hd x (List.mem_cons_of_mem d hx)) i j
        (by simpa [schedList] using hi) (by simpa [schedList] using hj)
        (Nat.lt_of_succ_lt_succ hij)
      simpa [schedList] using h

/-- Characterization of a run of pure audio messages whose clock readings
never exceed the already-scheduled time: each chunk is scheduled right at
`nextStartTime`, the live set grows by the back-to-back schedule, the clock
advances by the total duration, and one start effect is emitted per chunk. -/
theorem runMessages_audio :
    ∀ (ps : List (ℚ × ℚ)) (st : ServiceState),
      st.outputAudioContext = true →
      (∀ i (hi : i < ps.length),
        (ps.get ⟨i, hi⟩).2 ≤
          st.nextStartTime + ((ps.map Prod.fst).take i).sum) →
      runMessages st (ps.map fun p => (audioMsg p.1, p.2)) =
        ({ st with
            nextStartTime := st.nextStartTime + (ps.map Prod.fst).sum
          , outputSources := st.outputSources ++
              schedList st.nextStartTime (ps.map Prod.fst) },
          (schedList st.nextStartTime (ps.map Prod.fst)).map fun s =>
            Event.sourceStarted s.start s.duration)
  | [], st, hctx, ht => by simp [runMessages, schedList]
  | (d, t) :: rest, st, hctx, ht => by
      have h0 : t ≤ st.nextStartTime := by simpa using ht 0 (by simp)
      have hmax : max st.nextStartTime t = st.nextStartTime :=
        max_eq_left h0
      have hrec := runMessages_audio rest
        { st with
            nextStartTime := st.nextStartTime + d
          , outputSources :=
              st.outputSources ++ [⟨st.nextStartTime, d⟩] }
        (by simpa using hctx)
        (by
          intro i hi
          have h := ht (i + 1) (by simpa using Nat.succ_lt_succ hi)
          simpa [add_assoc] using h)
      simp only [List.map_cons, runMessages,
        handleServerMessage_audioMsg st d t hctx, hmax, hrec]
      simp [schedList, add_assoc]

/-- C1: from the freshly opened session state (clock at zero, empty live
set), processing a sequence of synthesized-audio chunks — pairs of a
nonnegative duration and the clock reading at processing time, the latter
never exceeding the already-scheduled time — with no interruption schedules
chunk `i` to start exactly at the sum of the durations of chunks
`0 .. i - 1` (relative to session start), records its duration, advances
`nextStartTime` to the total duration, and no two scheduled chunks overlap:
every earlier chunk ends no later than a later one starts. -/
theorem audio_chunks_gapless_nonoverlapping (ps : List (ℚ × ℚ))
    (hd : ∀ p ∈ ps, 0 ≤ p.1)
    (ht : ∀ i (hi : i < ps.length),
      (ps.get ⟨i, hi⟩).2 ≤ ((ps.map Prod.fst).take i).sum) :
    (runMessages openState
        (ps.map fun p =>
          (audioMsg p.1, p.2))).fst.outputSources.length = ps.length ∧
    (∀ i (hi : i < (runMessages openState
        (ps.map fun p => (audioMsg p.1, p.2))).fst.outputSources.length),
      ((runMessages openState
          (ps.map fun p =>
            (audioMsg p.1, p.2))).fst.outputSources.get ⟨i, hi⟩).start =
        ((ps.map Prod.fst).take i).sum ∧
      ((runMessages openState
          (ps.map fun p =>
            (audioMsg p.1, p.2))).fst.outputSources.get ⟨i, hi⟩).duration =
        (ps.map Prod.fst).getD i 0) ∧
    (runMessages openState
        (ps.map fun p => (audioMsg p.1, p.2))).fst.nextStartTime =
      (ps.map Prod.fst).sum ∧
    (∀ i j (hi : i < (runMessages openState
          (ps.map fun p => (audioMsg p.1, p.2))).fst.outputSources.length)
        (hj : j < (runMessages openState
          (ps.map fun p => (audioMsg p.1, p.2))).fst.outputSources.length),
      i < j →
      ((runMessages openState
          (ps.map fun p =>
            (audioMsg p.1, p.2))).fst.outputSources.get ⟨i, hi⟩).start +
        ((runMessages openState
          (ps.map fun p =>
            (audioMsg p.1, p.2))).fst.outputSources.get ⟨i, hi⟩).duration ≤
        ((runMessages openState
          (ps.map fun p =>
            (audioMsg p.1, p.2))).fst.outputSources.get ⟨j, hj⟩).start) := by
  have hctx : openState.outputAudioContext = true := rfl
  have hcond : ∀ i (hi : i < ps.length),
      (ps.get ⟨i, hi⟩).2 ≤
        openState.nextStartTime + ((ps.map Prod.fst).take i).sum := by
    intro i hi
    have h := ht i hi
    have hz : openState.nextStartTime = 0 := rfl
    rw [hz, zero_add]
    exact h
  have hrun := runMessages_audio ps openState hctx hcond
  have hOS : openState.outputSources = [] := rfl
  have hNS : openState.nextStartTime = 0 := rfl
  rw [hOS, hNS] at hrun
  rw [hrun]
  have hds : ∀ d ∈ ps.map Prod.fst, 0 ≤ d := by
    intro d hdm
    rcases List.mem_map.mp hdm with ⟨p, hp, hpd⟩
    exact hpd ▸ hd p hp
  refine ⟨?_, ?_, ?_, ?_⟩
  · simp [schedList_length]
  · intro i hi
    have hi' : i < (schedList (0 : ℚ) (ps.map Prod.fst)).length := by
      simpa using hi
    constructor
    · have h := schedList_start (ps.map Prod.fst) 0 i hi'
      simpa using h
    · have h := schedList_duration (ps.map Prod.fst) 0 i hi'
      simpa using h
  · simp
  · intro i j hi hj hij
    have hi' : i < (schedList (0 : ℚ) (ps.map Prod.fst)).length := by
      simpa using hi
    have hj' : j < (schedList (0 : ℚ) (ps.map Prod.fst)).length := by
      simpa using hj
    have h := schedList_no_overlap (ps.map Prod.fst) 0 hds i j hi' hj' hij
    simpa using h

/-- Witness for `audio_chunks_gapless_nonoverlapping`: chunks of durations
2 and 3 with clock readings 0 and 1 end with the clock at 5. -/
theorem audio_chunks_gapless_nonoverlapping_witness :
    (runMessages openState
        ([((2 : ℚ), (0 : ℚ)), (3, 1)].map fun p =>
          (audioMsg p.1, p.2))).fst.nextStartTime =
      ([((2 : ℚ), (0 : ℚ)), (3, 1)].map Prod.fst).sum := by
  have h := audio_chunks_gapless_nonoverlapping
    [((2 : ℚ), (0 : ℚ)), (3, 1)]
    (by intro p hp; fin_cases hp <;> norm_num)
    (by
      intro i hi
      have h2 : i < 2 := by simpa using hi
      interval_cases i <;> norm_num)
  exact h.2.2.1

end VAssistant
